import Mathlib

/-!
Verification development for the cliopatra program model
(`pkg/program.go`) and the render command's watch handler
(`cmd/cliopatra/cmds/render.go`).

The Go code is embedded shallowly:

* `Parameter` / `Program` become Lean structures.  The Go field
  `Type` (a `parameters.ParameterType`, which is a string type in the
  glazed library) is embedded as the field `Ty : String`.  The dynamic
  `Value interface{}` field and the runtime value map
  `ps map[string]interface{}` are embedded with a type parameter `V`.
* The external, type-directed formatter `parameters.RenderValue`
  (from the out-of-scope glazed library) is passed in as an abstract
  function `render : String → V → Except String String`.
* Go maps used only through lookup/insert are embedded as association
  lists; `ComputeArgs` never iterates over the runtime map, so this is
  faithful up to lookup semantics.
* Fallible Go functions returning `(T, error)` become
  `Except String T`; `errors.Wrapf` becomes prefixing of the message.

A separate heap-based model (further below) embeds the Go memory
semantics of slices, pointers and maps, which is needed for the
aliasing behaviour of `Program.Clone` / `Parameter.Clone`.
-/

deriving instance DecidableEq for Except

namespace Cliopatra

/-- Embeds `Parameter` of `pkg/program.go` (lines 25-33).  `Ty` embeds
the Go field `Type` (`parameters.ParameterType`, a string type). -/
structure Parameter (V : Type) where
  Name : String
  Flag : String
  Short : String
  Ty : String
  Value : V
  Raw : String
  NoValue : Bool
deriving DecidableEq

/-- Embeds `Program` of `pkg/program.go` (lines 54-80).  Go maps
`Env` and `ExpectedFiles` are embedded as association lists. -/
structure Program (V : Type) where
  Name : String
  Path : String
  Verbs : List String
  Description : String
  Env : List (String × String)
  RawFlags : List String
  Flags : List (Parameter V)
  Args : List (Parameter V)
  Stdin : String
  ExpectedStdout : String
  ExpectedError : String
  ExpectedStatusCode : Int
  ExpectedFiles : List (String × String)
deriving DecidableEq

/-- Lookup in the runtime value map `ps map[string]interface{}`:
embeds `value, ok := ps[name]`. -/
def lookupPS {V : Type} (ps : List (String × V)) (n : String) : Option V :=
  (ps.find? (fun kv => kv.1 = n)).map (fun kv => kv.2)

/-- Embeds `errors.Wrapf(err, "could not render %s %s", label, name)`
around a `parameters.RenderValue` result (`pkg/program.go` lines
230-240 and 250-262; `label` is `"flag"` or `"arg"`). -/
def wrapRenderErr (label pname : String) :
    Except String String → Except String String
  | .error e => .error ("could not render " ++ label ++ " " ++ pname ++ ": " ++ e)
  | .ok s => .ok s

/-- The value-resolution chain shared by the flag loop
(`pkg/program.go` lines 225-241) and the arg loop (lines 247-263) of
`ComputeArgs`:

* `value, ok := ps[p.Name]`; if absent, `value_ = p.Raw`;
* if present, `value_ = RenderValue(p.Type, value)` (errors wrapped);
* if the resulting `value_` is the empty string,
  `value_ = RenderValue(p.Type, p.Value)` (errors wrapped). -/
def resolveParamValue {V : Type} (render : String → V → Except String String)
    (label : String) (ps : List (String × V)) (p : Parameter V) :
    Except String String :=
  match lookupPS ps p.Name with
  | none =>
    if p.Raw = "" then wrapRenderErr label p.Name (render p.Ty p.Value)
    else .ok p.Raw
  | some v =>
    match render p.Ty v with
    | .error e => .error ("could not render " ++ label ++ " " ++ p.Name ++ ": " ++ e)
    | .ok s =>
      if s = "" then wrapRenderErr label p.Name (render p.Ty p.Value)
      else .ok s

/-- The CLI token of a flag: `flag_ := flag.Flag; if flag_ == "" {
flag_ = "--" + flag.Name }` (`pkg/program.go` lines 216-219). -/
def flagToken {V : Type} (p : Parameter V) : String :=
  if p.Flag = "" then "--" ++ p.Name else p.Flag

/-- The tokens one entry of `p.Flags` appends to the argument vector
(`pkg/program.go` lines 215-244): the token alone for `NoValue`
flags, otherwise the token followed by the resolved value. -/
def flagArgs {V : Type} (render : String → V → Except String String)
    (ps : List (String × V)) (p : Parameter V) :
    Except String (List String) :=
  if p.NoValue then .ok [flagToken p]
  else
    match resolveParamValue render "flag" ps p with
    | .error e => .error e
    | .ok v => .ok [flagToken p, v]

/-- Embeds `Program.ComputeArgs` (`pkg/program.go` lines 203-267):
`Verbs`, then `RawFlags`, then the tokens of each `Flags` entry, then
one resolved token per `Args` entry; the first rendering error aborts
(`mapM` over `Except` has exactly the Go loop's early-return
semantics). -/
def ComputeArgs {V : Type} (render : String → V → Except String String)
    (p : Program V) (ps : List (String × V)) :
    Except String (List String) :=
  match p.Flags.mapM (flagArgs render ps) with
  | .error e => .error e
  | .ok flagParts =>
    match p.Args.mapM (resolveParamValue render "arg" ps) with
    | .error e => .error e
    | .ok argParts => .ok (p.Verbs ++ p.RawFlags ++ flagParts.flatten ++ argParts)

/-- Congruence of `mapM` over `Except` for pointwise-equal functions. -/
theorem mapM_congr_except {α β : Type} (f g : α → Except String β) (xs : List α)
    (h : ∀ x ∈ xs, f x = g x) : xs.mapM f = xs.mapM g := by
  induction xs with
  | nil => rfl
  | cons x xs ih =>
    simp only [List.mapM_cons]
    rw [h x (by simp), ih (fun y hy => h y (by simp [hy]))]

/-- A sample formatter: renders a runtime `Nat` value as decimal text. -/
def renderNat : String → Nat → Except String String :=
  fun _ v => .ok (toString v)

/-- A sample formatter whose rendering is always the empty string. -/
def renderEmptyStr : String → Nat → Except String String :=
  fun _ _ => .ok ""

/-- Sample flag parameter: `count`, CLI token `-n`, static default `1`. -/
def paramC1 : Parameter Nat :=
  { Name := "count", Flag := "-n", Short := "", Ty := "int",
    Value := 1, Raw := "", NoValue := false }

/-- Sample runtime value map supplying `count = 5`. -/
def psC1 : List (String × Nat) := [("count", 5)]

/-- **C1.** For every parameter and runtime value map `ps`,
`ComputeArgs`'s value resolution (the chain `resolveParamValue`, used
verbatim for each non-`NoValue` flag and each positional arg) obeys
the precedence: (a) an entry of `ps` keyed by `Name`, rendered through
the type formatter, is used when its rendering is non-empty; (b) with
no entry, `Raw` is used verbatim when non-empty; (c) when the string
from (a) or (b) is empty, the static `Value`'s rendering is used
instead — a runtime value rendering to `""` is silently overridden by
the static default. -/
theorem computeArgs_value_precedence {V : Type}
    (render : String → V → Except String String) (label : String)
    (ps : List (String × V)) (p : Parameter V) :
    (∀ v s, lookupPS ps p.Name = some v → render p.Ty v = .ok s → s ≠ "" →
      resolveParamValue render label ps p = .ok s) ∧
    (lookupPS ps p.Name = none → p.Raw ≠ "" →
      resolveParamValue render label ps p = .ok p.Raw) ∧
    (∀ v, lookupPS ps p.Name = some v → render p.Ty v = .ok "" →
      resolveParamValue render label ps p =
        wrapRenderErr label p.Name (render p.Ty p.Value)) ∧
    (lookupPS ps p.Name = none → p.Raw = "" →
      resolveParamValue render label ps p =
        wrapRenderErr label p.Name (render p.Ty p.Value)) := by
  refine ⟨?_, ?_, ?_, ?_⟩
  · intro v s hv hs hne
    unfold resolveParamValue
    rw [hv]
    dsimp only
    rw [hs]
    simp [hne]
  · intro hv hr
    unfold resolveParamValue
    rw [hv]
    simp [hr]
  · intro v hv hs
    unfold resolveParamValue
    rw [hv]
    dsimp only
    rw [hs]
    simp
  · intro hv hr
    unfold resolveParamValue
    rw [hv]
    simp [hr]

/-- Witness for C1: with runtime value `count = 5` rendering to
`"5"`, the resolved value is `"5"`, not `Raw` and not the default. -/
theorem computeArgs_value_precedence_witness :
    resolveParamValue renderNat "flag" psC1 paramC1 = .ok "5" :=
  (computeArgs_value_precedence renderNat "flag" psC1 paramC1).1 5 "5"
    rfl rfl (by decide)

/-- Sample program exercising all four sections of the vector. -/
def progC4 : Program Nat :=
  { Name := "tool", Path := "", Verbs := ["run", "fast"],
    Description := "", Env := [], RawFlags := ["--raw1"],
    Flags := [paramC1], Args := [{ paramC1 with Name := "pos", Flag := "" }],
    Stdin := "", ExpectedStdout := "", ExpectedError := "",
    ExpectedStatusCode := 0, ExpectedFiles := [] }

/-- **C4.** Every successful `ComputeArgs` result is built strictly as
`Verbs` (verbatim, declared order), then `RawFlags` (verbatim,
declared order), then the rendered tokens of each `Flags` entry in
declared order, then one rendered token per `Args` entry in declared
order. -/
theorem computeArgs_order {V : Type}
    (render : String → V → Except String String) (p : Program V)
    (ps : List (String × V)) (res : List String)
    (h : ComputeArgs render p ps = .ok res) :
    ∃ flagParts argParts,
      p.Flags.mapM (flagArgs render ps) = .ok flagParts ∧
      p.Args.mapM (resolveParamValue render "arg" ps) = .ok argParts ∧
      res = p.Verbs ++ p.RawFlags ++ flagParts.flatten ++ argParts := by
  unfold ComputeArgs at h
  cases hf : p.Flags.mapM (flagArgs render ps) with
  | error e => rw [hf] at h; exact absurd h (by simp)
  | ok fp =>
    rw [hf] at h
    cases ha : p.Args.mapM (resolveParamValue render "arg" ps) with
    | error e => rw [ha] at h; exact absurd h (by simp)
    | ok ap =>
      rw [ha] at h
      refine ⟨fp, ap, rfl, rfl, ?_⟩
      simpa using h.symm

/-- Witness for C4: `["run","fast"] ++ ["--raw1"] ++ ["-n","5"] ++
["5"]` for the sample program. -/
theorem computeArgs_order_witness :
    ∃ flagParts argParts,
      progC4.Flags.mapM (flagArgs renderNat psC1) = .ok flagParts ∧
      progC4.Args.mapM (resolveParamValue renderNat "arg" psC1) = .ok argParts ∧
      ["run", "fast", "--raw1", "-n", "5", "1"] =
        progC4.Verbs ++ progC4.RawFlags ++ flagParts.flatten ++ argParts :=
  computeArgs_order renderNat progC4 psC1 ["run", "fast", "--raw1", "-n", "5", "1"]
    (by decide)

/-- Sample flag whose resolved value is the empty string: the runtime
map supplies `count`, the formatter renders everything (including the
static default) to `""`. -/
def paramC5 : Parameter Nat :=
  { Name := "count", Flag := "", Short := "", Ty := "int",
    Value := 1, Raw := "", NoValue := false }

/-- **C5.** Each flag entry's CLI token is `Flag` if set, else
`"--" + Name`; a `NoValue` flag contributes exactly that one token
(value resolution skipped), and a non-`NoValue` flag contributes
exactly two tokens, the flag token followed by the resolved value as
a separate token — even when that value is the empty string. -/
theorem computeArgs_flag_tokens {V : Type}
    (render : String → V → Except String String)
    (ps : List (String × V)) (f : Parameter V) (ts : List String)
    (h : flagArgs render ps f = .ok ts) :
    (f.Flag ≠ "" → flagToken f = f.Flag) ∧
    (f.Flag = "" → flagToken f = "--" ++ f.Name) ∧
    (f.NoValue = true → ts = [flagToken f]) ∧
    (f.NoValue = false →
      ∃ v, resolveParamValue render "flag" ps f = .ok v ∧
        ts = [flagToken f, v]) := by
  refine ⟨fun hf => by simp [flagToken, hf], fun hf => by simp [flagToken, hf], ?_, ?_⟩
  · intro hnv
    unfold flagArgs at h
    rw [hnv] at h
    simpa using h.symm
  · intro hnv
    unfold flagArgs at h
    rw [hnv] at h
    simp only [Bool.false_eq_true, if_false] at h
    cases hr : resolveParamValue render "flag" ps f with
    | error e => rw [hr] at h; exact absurd h (by simp)
    | ok v =>
      rw [hr] at h
      exact ⟨v, rfl, by simpa using h.symm⟩

/-- Witness for C5: a flag without an explicit `Flag` override whose
resolved value is the empty string still contributes the two tokens
`["--count", ""]`. -/
theorem computeArgs_flag_tokens_witness :
    flagArgs renderEmptyStr psC1 paramC5 = .ok ["--count", ""] ∧
    ∃ v, resolveParamValue renderEmptyStr "flag" psC1 paramC5 = .ok v ∧
      ["--count", ""] = [flagToken paramC5, v] :=
  ⟨by decide,
    (computeArgs_flag_tokens renderEmptyStr psC1 paramC5 ["--count", ""]
      (by decide)).2.2.2 rfl⟩

/-- Two runtime maps with the same lookup semantics but different
representations (a shadowed duplicate key). -/
def psC7a : List (String × Nat) := [("count", 5), ("count", 7)]

/-- The deduplicated form of `psC7a`. -/
def psC7b : List (String × Nat) := [("count", 5)]

/-- **C7.** `ComputeArgs` is deterministic: it reads the runtime map
only through lookups, so any two maps with identical lookup semantics
(in particular, identical maps) yield identical argument vectors or
identical errors. -/
theorem computeArgs_deterministic {V : Type}
    (render : String → V → Except String String) (p : Program V)
    (ps1 ps2 : List (String × V))
    (h : ∀ n, lookupPS ps1 n = lookupPS ps2 n) :
    ComputeArgs render p ps1 = ComputeArgs render p ps2 := by
  have hres : ∀ (label : String) (q : Parameter V),
      resolveParamValue render label ps1 q = resolveParamValue render label ps2 q := by
    intro label q
    unfold resolveParamValue
    rw [h q.Name]
  have hflag : ∀ q : Parameter V, flagArgs render ps1 q = flagArgs render ps2 q := by
    intro q
    unfold flagArgs
    rw [hres "flag" q]
  unfold ComputeArgs
  rw [mapM_congr_except _ _ _ (fun q _ => hflag q),
    mapM_congr_except _ _ _ (fun q _ => hres "arg" q)]

/-- Witness for C7: the shadowed-duplicate map and its deduplicated
form produce the same argument vector for the sample program. -/
theorem computeArgs_deterministic_witness :
    ComputeArgs renderNat progC4 psC7a = ComputeArgs renderNat progC4 psC7b := by
  apply computeArgs_deterministic
  intro n
  by_cases hn : ("count" : String) = n
  · simp [psC7a, psC7b, lookupPS, List.find?, hn]
  · simp [psC7a, psC7b, lookupPS, List.find?, hn]

/-- Outcome of the child process, modelling `os/exec.Cmd.Run`: either
the command could not start (spawn failure), or it started and exited
with a status, having streamed `output` to the combined
stdout/stderr sink.  Per the documented semantics of `exec.Cmd.Run`,
a non-zero exit produces an error of type `*exec.ExitError` whose
message is `"exit status N"`; only a zero exit returns `nil`. -/
inductive RunResult where
  | spawnFailure (err : String)
  | exited (status : Nat) (output : String)
deriving DecidableEq

/-- The OS facilities `RunIntoWriter` uses: `exec.LookPath`,
`os.Environ`, and process execution keyed by resolved path, argument
vector, environment, and optional stdin payload. -/
structure ExecWorld where
  lookPath : String → Except String String
  environ : List String
  run : String → List String → List String → Option String → RunResult

/-- What `RunIntoWriter` leaves behind: the text written to the
caller-supplied `io.Writer` (the child's combined stdout/stderr) and
the returned `error` (`none` embeds a `nil` error). -/
structure RunOutcome where
  written : String
  err : Option String
deriving DecidableEq

/-- Executable path resolution of `RunIntoWriter` (`pkg/program.go`
lines 170-176): use `p.Path` if set, else `exec.LookPath(p.Name)`,
wrapping a lookup failure as `could not find executable`. -/
def resolvePath {V : Type} (world : ExecWorld) (p : Program V) :
    Except String String :=
  if p.Path = "" then
    match world.lookPath p.Name with
    | .error e => .error ("could not find executable " ++ p.Name ++ ": " ++ e)
    | .ok path => .ok path
  else .ok p.Path

/-- Environment construction of `RunIntoWriter` (`pkg/program.go`
lines 184-189): the inherited `os.Environ()` followed by one
`k + "=" + v` entry per `p.Env` entry. -/
def buildEnv {V : Type} (world : ExecWorld) (p : Program V) : List String :=
  world.environ ++ p.Env.map (fun kv => kv.1 ++ "=" ++ kv.2)

/-- Stdin wiring of `RunIntoWriter` (`pkg/program.go` lines 191-193):
a reader over `p.Stdin` when non-empty, otherwise no input stream. -/
def stdinOf {V : Type} (p : Program V) : Option String :=
  if p.Stdin = "" then none else some p.Stdin

/-- Embeds `Program.RunIntoWriter` (`pkg/program.go` lines 164-201):
resolve the executable, compute the argument vector, run the child
with the merged environment and optional stdin, and wrap any
`cmd.Run()` error — including the `*exec.ExitError` produced by a
non-zero exit status — as `could not run <name>` (lines 196-198).
The `parsedLayers` argument is embedded at an arbitrary type `L`,
exactly as unused as it is in the source. -/
def RunIntoWriter {V L : Type} (world : ExecWorld)
    (render : String → V → Except String String) (p : Program V)
    (parsedLayers : L) (ps : List (String × V)) : RunOutcome :=
  match resolvePath world p with
  | .error e => { written := "", err := some e }
  | .ok path =>
    match ComputeArgs render p ps with
    | .error e => { written := "", err := some e }
    | .ok args =>
      match world.run path args (buildEnv world p) (stdinOf p) with
      | .spawnFailure e =>
        { written := "", err := some ("could not run " ++ p.Name ++ ": " ++ e) }
      | .exited status out =>
        { written := out,
          err := if status = 0 then none
                 else some ("could not run " ++ p.Name ++ ": exit status " ++
                   toString status) }

/-- A world whose child process always exits with status 1 after
writing some output. -/
def worldExit1 : ExecWorld :=
  { lookPath := fun _ => .error "not found",
    environ := ["HOME=/root"],
    run := fun _ _ _ _ => .exited 1 "some output" }

/-- A minimal program with an explicit executable path. -/
def progC2 : Program Nat :=
  { Name := "mytool", Path := "/bin/mytool", Verbs := [],
    Description := "", Env := [], RawFlags := [], Flags := [],
    Args := [], Stdin := "", ExpectedStdout := "", ExpectedError := "",
    ExpectedStatusCode := 0, ExpectedFiles := [] }

/-- **C2 counterexample.** A child process that spawns, runs, and
exits with status 1 makes `RunIntoWriter` return an error (wrapping
Go's `*exec.ExitError` with the program name), contradicting the
claim that a non-zero exit yields no error.  The captured output was
still written to the writer. -/
theorem runIntoWriter_nonzero_exit_counterexample :
    RunIntoWriter worldExit1 renderNat progC2 () [] =
      { written := "some output",
        err := some "could not run mytool: exit status 1" } := by
  decide

/-- **C2 (amended).** When path resolution and argument compilation
succeed and the child process spawns and exits with status `st`
having produced `out`, `RunIntoWriter` writes `out` to the sink and
returns no error exactly when `st = 0`; a non-zero exit status is a
hard error, wrapped as `could not run <name>: exit status <st>`
(Go's `cmd.Run` reports a non-zero exit as an `*exec.ExitError`).
Only spawn/run failures and rendering failures produce other
errors. -/
theorem runIntoWriter_exit_status {V L : Type} (world : ExecWorld)
    (render : String → V → Except String String) (p : Program V)
    (l : L) (ps : List (String × V)) (path : String)
    (args : List String) (st : Nat) (out : String)
    (h1 : resolvePath world p = .ok path)
    (h2 : ComputeArgs render p ps = .ok args)
    (h3 : world.run path args (buildEnv world p) (stdinOf p) = .exited st out) :
    RunIntoWriter world render p l ps =
      { written := out,
        err := if st = 0 then none
               else some ("could not run " ++ p.Name ++ ": exit status " ++
                 toString st) } := by
  unfold RunIntoWriter
  rw [h1]
  dsimp only
  rw [h2]
  dsimp only
  rw [h3]

/-- Witness for the amended C2: at exit status 1 the error is
`could not run mytool: exit status 1`; the output is still
exposed. -/
theorem runIntoWriter_exit_status_witness :
    RunIntoWriter worldExit1 renderNat progC2 () [] =
      { written := "some output",
        err := if 1 = 0 then none
               else some ("could not run " ++ progC2.Name ++ ": exit status " ++
                 toString 1) } :=
  runIntoWriter_exit_status worldExit1 renderNat progC2 () []
    "/bin/mytool" [] 1 "some output" (by decide) (by decide) (by decide)

/-- **C10.** `RunIntoWriter` never reads its `parsedLayers` argument:
any two values of any type yield the same written output, the same
child invocation, and the same returned error. -/
theorem runIntoWriter_ignores_parsedLayers {V L : Type} (world : ExecWorld)
    (render : String → V → Except String String) (p : Program V)
    (l1 l2 : L) (ps : List (String × V)) :
    RunIntoWriter world render p l1 ps = RunIntoWriter world render p l2 ps :=
  rfl

/-- Embeds Go `strings.HasPrefix`, computed on the character list. -/
def hasPrefixStr (s pre : String) : Bool :=
  pre.data.isPrefixOf s.data

/-- Embeds Go `strings.HasSuffix`, computed on the character list. -/
def hasSuffixStr (s suf : String) : Bool :=
  suf.data.isSuffixOf s.data

/-- A directory tree as `LoadProgramsFromFS` observes it through
`fs.ReadDir` / `entry.IsDir()` / `f.Open`: each file carries the
result of opening and YAML-decoding it (`NewProgramFromYAML`),
which is only consulted for entries with a YAML extension. -/
inductive FSTree (V : Type) : Type where
  | file (name : String) (dec : Except String (Program V))
  | dir (name : String) (entries : List (FSTree V))

/-- Embeds `LoadProgramsFromFS` (`pkg/program.go` lines 269-312) on
the entry list of one directory: entries whose name starts with `.`
are skipped; directories are walked recursively (errors wrapped with
the directory name); entries ending in `.yaml` or `.yml` are decoded
into one `Program` each (errors wrapped with the file name); every
other file is ignored.  Programs accumulate in entry order. -/
def loadEntries {V : Type} : List (FSTree V) → Except String (List (Program V))
  | [] => .ok []
  | .file name dec :: rest =>
    if hasPrefixStr name "." then loadEntries rest
    else if hasSuffixStr name ".yaml" || hasSuffixStr name ".yml" then
      match dec with
      | .error e => .error ("could not load program from file " ++ name ++ ": " ++ e)
      | .ok p =>
        match loadEntries rest with
        | .error e => .error e
        | .ok ps => .ok (p :: ps)
    else loadEntries rest
  | .dir name entries :: rest =>
    if hasPrefixStr name "." then loadEntries rest
    else
      match loadEntries entries with
      | .error e => .error ("could not load programs from dir " ++ name ++ ": " ++ e)
      | .ok ps =>
        match loadEntries rest with
        | .error e => .error e
        | .ok ps2 => .ok (ps ++ ps2)

/-- Modelled from the spec's repository-walk description: recursively
walk the tree at any nesting depth, skip every file or directory
whose name starts with a dot, and collect the decode result of
exactly the entries whose names end in `.yaml` or `.yml`, in
traversal order; every other file contributes nothing. -/
def collectDecodes {V : Type} : List (FSTree V) → List (Except String (Program V))
  | [] => []
  | .file name dec :: rest =>
    if hasPrefixStr name "." then collectDecodes rest
    else if hasSuffixStr name ".yaml" || hasSuffixStr name ".yml" then
      dec :: collectDecodes rest
    else collectDecodes rest
  | .dir name entries :: rest =>
    if hasPrefixStr name "." then collectDecodes rest
    else collectDecodes entries ++ collectDecodes rest

/-- **C8.** `LoadProgramsFromFS` returns `ok l` exactly when the
decode results of the non-hidden `.yaml`/`.yml` files — collected
recursively at any nesting depth, skipping every dot-prefixed file or
directory — are precisely `l`, each file decoding to one `Program`;
files with other extensions are ignored without error, and a decode
failure anywhere prevents success. -/
theorem loadProgramsFromFS_yaml_walk {V : Type} (es : List (FSTree V))
    (l : List (Program V)) :
    loadEntries es = .ok l ↔ collectDecodes es = l.map Except.ok := by
  induction es using loadEntries.induct generalizing l with
  | case1 =>
    have eL : loadEntries ([] : List (FSTree V)) = .ok [] := by
      simp [loadEntries]
    have eC : collectDecodes ([] : List (FSTree V)) = [] := by
      simp [collectDecodes]
    rw [eL, eC]
    constructor
    · intro h
      injection h with h
      simp [← h]
    · intro h
      cases l with
      | nil => rfl
      | cons a t => simp at h
  | case2 name dec rest hname ih =>
    have eL : loadEntries (.file name dec :: rest) = loadEntries rest := by
      rw [loadEntries.eq_def]
      simp [hname]
    have eC : collectDecodes (.file name dec :: rest) = collectDecodes rest := by
      simp [collectDecodes, hname]
    rw [eL, eC]
    exact ih l
  | case3 name rest hname hyaml e =>
    simp only [Bool.not_eq_true] at hname
    have eL : loadEntries (.file name (.error e) :: rest) =
        .error ("could not load program from file " ++ name ++ ": " ++ e) := by
      simp [loadEntries, hname, hyaml]
    have eC : collectDecodes (.file name (.error e) :: rest) =
        .error e :: collectDecodes rest := by
      simp [collectDecodes, hname, hyaml]
    rw [eL, eC]
    constructor
    · intro h
      exact absurd h (by simp)
    · intro h
      cases l with
      | nil => simp at h
      | cons a t => simp at h
  | case4 name rest hname hyaml p e herr ih =>
    simp only [Bool.not_eq_true] at hname
    have eL : loadEntries (.file name (.ok p) :: rest) = .error e := by
      simp [loadEntries, hname, hyaml, herr]
    have eC : collectDecodes (.file name (.ok p) :: rest) =
        .ok p :: collectDecodes rest := by
      simp [collectDecodes, hname, hyaml]
    rw [eL, eC]
    constructor
    · intro h
      exact absurd h (by simp)
    · intro h
      cases l with
      | nil => simp at h
      | cons a t =>
        simp only [List.map_cons, List.cons.injEq, Except.ok.injEq] at h
        have h2 := (ih t).mpr h.2
        rw [herr] at h2
        exact absurd h2 (by simp)
  | case5 name rest hname hyaml p ps hrest ih =>
    simp only [Bool.not_eq_true] at hname
    have eL : loadEntries (.file name (.ok p) :: rest) = .ok (p :: ps) := by
      simp [loadEntries, hname, hyaml, hrest]
    have eC : collectDecodes (.file name (.ok p) :: rest) =
        .ok p :: collectDecodes rest := by
      simp [collectDecodes, hname, hyaml]
    rw [eL, eC]
    constructor
    · intro h
      injection h with h
      have hc := (ih ps).mp hrest
      rw [← h]
      simp [hc]
    · intro h
      cases l with
      | nil => simp at h
      | cons a t =>
        simp only [List.map_cons, List.cons.injEq, Except.ok.injEq] at h
        have h2 := (ih t).mpr h.2
        rw [hrest] at h2
        injection h2 with h2
        simp [h.1, h2]
  | case6 name dec rest hname hyaml ih =>
    simp only [Bool.not_eq_true] at hname hyaml
    have eL : loadEntries (.file name dec :: rest) = loadEntries rest := by
      rw [loadEntries.eq_def]
      simp [hname, hyaml]
    have eC : collectDecodes (.file name dec :: rest) = collectDecodes rest := by
      simp [collectDecodes, hname, hyaml]
    rw [eL, eC]
    exact ih l
  | case7 name entries rest hname ih =>
    have eL : loadEntries (.dir name entries :: rest) = loadEntries rest := by
      simp [loadEntries, hname]
    have eC : collectDecodes (.dir name entries :: rest) = collectDecodes rest := by
      simp [collectDecodes, hname]
    rw [eL, eC]
    exact ih l
  | case8 name entries rest hname e herr ih =>
    simp only [Bool.not_eq_true] at hname
    have eL : loadEntries (.dir name entries :: rest) =
        .error ("could not load programs from dir " ++ name ++ ": " ++ e) := by
      simp [loadEntries, hname, herr]
    have eC : collectDecodes (.dir name entries :: rest) =
        collectDecodes entries ++ collectDecodes rest := by
      simp [collectDecodes, hname]
    rw [eL, eC]
    constructor
    · intro h
      exact absurd h (by simp)
    · intro h
      rcases List.map_eq_append_iff.mp h.symm with ⟨l1, l2, rfl, h1, h2⟩
      have h3 := (ih l1).mpr h1.symm
      rw [herr] at h3
      exact absurd h3 (by simp)
  | case9 name entries rest hname ps hents e herr ihe ihr =>
    simp only [Bool.not_eq_true] at hname
    have eL : loadEntries (.dir name entries :: rest) = .error e := by
      simp [loadEntries, hname, hents, herr]
    have eC : collectDecodes (.dir name entries :: rest) =
        collectDecodes entries ++ collectDecodes rest := by
      simp [collectDecodes, hname]
    rw [eL, eC]
    constructor
    · intro h
      exact absurd h (by simp)
    · intro h
      rcases List.map_eq_append_iff.mp h.symm with ⟨l1, l2, rfl, h1, h2⟩
      have h3 := (ihr l2).mpr h2.symm
      rw [herr] at h3
      exact absurd h3 (by simp)
  | case10 name entries rest hname ps hents ps2 hrest ihe ihr =>
    simp only [Bool.not_eq_true] at hname
    have eL : loadEntries (.dir name entries :: rest) = .ok (ps ++ ps2) := by
      simp [loadEntries, hname, hents, hrest]
    have eC : collectDecodes (.dir name entries :: rest) =
        collectDecodes entries ++ collectDecodes rest := by
      simp [collectDecodes, hname]
    rw [eL, eC]
    constructor
    · intro h
      injection h with h
      have c1 := (ihe ps).mp hents
      have c2 := (ihr ps2).mp hrest
      rw [← h]
      simp [c1, c2]
    · intro h
      rcases List.map_eq_append_iff.mp h.symm with ⟨l1, l2, rfl, h1, h2⟩
      have e1 := (ihe l1).mpr h1.symm
      have e2 := (ihr l2).mpr h2.symm
      rw [hents] at e1
      rw [hrest] at e2
      injection e1 with e1
      injection e2 with e2
      simp [e1, e2]

/-- The OS facilities `LoadRepositories` uses: `os.Stat` on each
repository root, and `os.DirFS(root)` giving the entry list that
`LoadProgramsFromFS(fs, ".")` reads. -/
structure RepoWorld (V : Type) where
  stat : String → Except String Unit
  tree : String → List (FSTree V)

/-- The name-keyed registry entries for a list of programs, in
insertion order: `programs[program.Name] = program`. -/
def pairsOf {V : Type} (l : List (Program V)) : List (String × Program V) :=
  l.map (fun p => (p.Name, p))

/-- Go map membership `_, ok := programs[name]` on the registry. -/
def registryHas {V : Type} (registry : List (String × Program V)) (n : String) : Bool :=
  (registry.find? (fun kv => kv.1 = n)).isSome

/-- The merge loop of `LoadRepositories` (`pkg/program.go` lines
328-333): register each loaded program in order, failing with
`program <name> already exists` on a name collision. -/
def insertPrograms {V : Type} (registry : List (String × Program V)) :
    List (Program V) → Except String (List (String × Program V))
  | [] => .ok registry
  | prog :: rest =>
    if registryHas registry prog.Name then
      .error ("program " ++ prog.Name ++ " already exists")
    else insertPrograms (registry ++ [(prog.Name, prog)]) rest

/-- The repository loop of `LoadRepositories` (`pkg/program.go` lines
317-334): stat the root, load its programs, merge them into the
accumulating registry. -/
def loadReposGo {V : Type} (world : RepoWorld V) :
    List String → List (String × Program V) →
    Except String (List (String × Program V))
  | [], registry => .ok registry
  | repo :: rest, registry =>
    match world.stat repo with
    | .error e => .error ("could not stat repository " ++ repo ++ ": " ++ e)
    | .ok _ =>
      match loadEntries (world.tree repo) with
      | .error e =>
        .error ("could not load programs from repository " ++ repo ++ ": " ++ e)
      | .ok progs =>
        match insertPrograms registry progs with
        | .error e => .error e
        | .ok registry2 => loadReposGo world rest registry2

/-- Embeds `LoadRepositories` (`pkg/program.go` lines 314-336). -/
def LoadRepositories {V : Type} (world : RepoWorld V) (repos : List String) :
    Except String (List (String × Program V)) :=
  loadReposGo world repos []

/-- The program list a root contributes when its load succeeds. -/
def repoProgramsOf {V : Type} (world : RepoWorld V) (r : String) :
    List (Program V) :=
  match loadEntries (world.tree r) with
  | .ok ps => ps
  | .error _ => []

/-- Registry membership coincides with membership in the name list. -/
theorem registryHas_pairsOf {V : Type} (acc : List (Program V)) (n : String) :
    registryHas (pairsOf acc) n = true ↔ n ∈ acc.map Program.Name := by
  induction acc with
  | nil => simp [registryHas, pairsOf]
  | cons p t ih =>
    by_cases h : p.Name = n
    · simp [registryHas, pairsOf, List.find?, h]
    · simp only [pairsOf, List.map_cons, registryHas] at ih ⊢
      rw [List.find?_cons_of_neg _ (by simp [h])]
      simp only [List.map_cons, List.mem_cons]
      rw [ih]
      constructor
      · exact Or.inr
      · rintro (hc | hc)
        · exact absurd hc.symm h
        · exact hc

/-- The merge loop succeeds on exactly the duplicate-free name lists,
extends the registry in order, and reports the collision otherwise. -/
theorem insertPrograms_spec {V : Type} (progs : List (Program V)) :
    ∀ acc : List (Program V), (acc.map Program.Name).Nodup →
    ((((acc ++ progs).map Program.Name).Nodup →
      insertPrograms (pairsOf acc) progs = .ok (pairsOf (acc ++ progs))) ∧
    (¬ (((acc ++ progs).map Program.Name).Nodup) →
      ∃ x, insertPrograms (pairsOf acc) progs =
        .error ("program " ++ x ++ " already exists"))) := by
  induction progs with
  | nil =>
    intro acc hacc
    constructor
    · intro _
      simp [insertPrograms]
    · intro hdup
      simp only [List.append_nil] at hdup
      exact absurd hacc hdup
  | cons prog rest ih =>
    intro acc hacc
    by_cases hmem : prog.Name ∈ acc.map Program.Name
    · have hreg : registryHas (pairsOf acc) prog.Name = true :=
        (registryHas_pairsOf acc prog.Name).mpr hmem
      constructor
      · intro hnd
        exfalso
        rw [List.map_append] at hnd
        rcases List.nodup_append.mp hnd with ⟨_, _, hdisj⟩
        exact hdisj hmem (by simp)
      · intro _
        exact ⟨prog.Name, by simp [insertPrograms, hreg]⟩
    · have hreg : registryHas (pairsOf acc) prog.Name = false := by
        rw [Bool.eq_false_iff]
        intro hc
        exact hmem ((registryHas_pairsOf acc prog.Name).mp hc)
      have hpa : pairsOf (acc ++ [prog]) = pairsOf acc ++ [(prog.Name, prog)] := by
        simp [pairsOf]
      have hstep : insertPrograms (pairsOf acc) (prog :: rest) =
          insertPrograms (pairsOf (acc ++ [prog])) rest := by
        simp [insertPrograms, hreg, hpa]
      have hacc2 : ((acc ++ [prog]).map Program.Name).Nodup := by
        rw [List.map_append]
        refine List.nodup_append.mpr ⟨hacc, by simp, ?_⟩
        intro a ha hb
        rw [show ([prog].map Program.Name) = [prog.Name] from rfl,
          List.mem_singleton] at hb
        exact hmem (hb ▸ ha)
      have hshape : acc ++ prog :: rest = (acc ++ [prog]) ++ rest := by
        simp
      have ih2 := ih (acc ++ [prog]) hacc2
      constructor
      · intro hnd
        rw [hstep, hshape]
        exact ih2.1 (by rwa [hshape] at hnd)
      · intro hdup
        rw [hstep]
        exact ih2.2 (by rwa [hshape] at hdup)

/-- The repository loop: under successful stats and per-root loads,
it succeeds exactly on duplicate-free name lists and reports the
collision otherwise. -/
theorem loadReposGo_spec {V : Type} (world : RepoWorld V) (repos : List String)
    (hok : ∀ r ∈ repos, world.stat r = .ok () ∧
      (loadEntries (world.tree r)).isOk = true) :
    ∀ acc : List (Program V), (acc.map Program.Name).Nodup →
    ((((acc ++ (repos.map (repoProgramsOf world)).flatten).map Program.Name).Nodup →
      loadReposGo world repos (pairsOf acc) =
        .ok (pairsOf (acc ++ (repos.map (repoProgramsOf world)).flatten))) ∧
    (¬ (((acc ++ (repos.map (repoProgramsOf world)).flatten).map Program.Name).Nodup) →
      ∃ x, loadReposGo world repos (pairsOf acc) =
        .error ("program " ++ x ++ " already exists"))) := by
  induction repos with
  | nil =>
    intro acc hacc
    constructor
    · intro _
      simp [loadReposGo]
    · intro hdup
      simp only [List.map_nil, List.flatten_nil, List.append_nil] at hdup
      exact absurd hacc hdup
  | cons r rest ih =>
    intro acc hacc
    obtain ⟨hstat, hload⟩ := hok r (by simp)
    obtain ⟨ps, hps⟩ : ∃ ps, loadEntries (world.tree r) = .ok ps := by
      cases hl : loadEntries (world.tree r) with
      | error e => rw [hl] at hload; simp [Except.isOk, Except.toBool] at hload
      | ok ps => exact ⟨ps, rfl⟩
    have hrp : repoProgramsOf world r = ps := by
      simp [repoProgramsOf, hps]
    have hshape : acc ++ ((r :: rest).map (repoProgramsOf world)).flatten =
        (acc ++ ps) ++ (rest.map (repoProgramsOf world)).flatten := by
      simp [hrp]
    have ihok : ∀ r2 ∈ rest, world.stat r2 = .ok () ∧
        (loadEntries (world.tree r2)).isOk = true :=
      fun r2 hr2 => hok r2 (by simp [hr2])
    by_cases hnd : ((acc ++ ps).map Program.Name).Nodup
    · have hins := (insertPrograms_spec ps acc hacc).1 hnd
      have hstep : loadReposGo world (r :: rest) (pairsOf acc) =
          loadReposGo world rest (pairsOf (acc ++ ps)) := by
        simp [loadReposGo, hstat, hps, hins]
      have ih2 := ih ihok (acc ++ ps) hnd
      constructor
      · intro hall
        rw [hstep, hshape]
        exact ih2.1 (by rwa [hshape] at hall)
      · intro hdup
        rw [hstep]
        exact ih2.2 (by rwa [hshape] at hdup)
    · obtain ⟨x, hx⟩ := (insertPrograms_spec ps acc hacc).2 hnd
      have hstep : loadReposGo world (r :: rest) (pairsOf acc) =
          .error ("program " ++ x ++ " already exists") := by
        simp [loadReposGo, hstat, hps, hx]
      constructor
      · intro hall
        exfalso
        apply hnd
        have hsub : ((acc ++ ps).map Program.Name).Sublist
            ((acc ++ ((r :: rest).map (repoProgramsOf world)).flatten).map Program.Name) := by
          rw [hshape]
          exact (List.sublist_append_left _ _).map _
        exact hall.sublist hsub
      · intro _
        exact ⟨x, hstep⟩

/-- **C6.** `LoadRepositories` fails with a collision error — the
whole load aborts, no registry is returned — whenever a program name
would be registered twice, whether the duplicates come from two
different roots or from one root; and when all names are distinct it
returns the full registry, so first-writer-wins merging never
occurs. -/
theorem loadRepositories_collision {V : Type} (world : RepoWorld V)
    (repos : List String)
    (hok : ∀ r ∈ repos, world.stat r = .ok () ∧
      (loadEntries (world.tree r)).isOk = true) :
    (¬ ((((repos.map (repoProgramsOf world)).flatten).map Program.Name).Nodup) →
      ∃ x, LoadRepositories world repos =
        .error ("program " ++ x ++ " already exists")) ∧
    ((((repos.map (repoProgramsOf world)).flatten).map Program.Name).Nodup →
      LoadRepositories world repos =
        .ok (pairsOf ((repos.map (repoProgramsOf world)).flatten))) := by
  have h := loadReposGo_spec world repos hok [] (by simp)
  simp only [List.nil_append] at h
  exact ⟨h.2, h.1⟩

/-- A program named `foo`, as decoded from a definition file. -/
def progFoo : Program Nat :=
  { Name := "foo", Path := "", Verbs := [], Description := "",
    Env := [], RawFlags := [], Flags := [], Args := [], Stdin := "",
    ExpectedStdout := "", ExpectedError := "", ExpectedStatusCode := 0,
    ExpectedFiles := [] }

/-- Two repository roots, each containing one file defining `foo`. -/
def worldC6 : RepoWorld Nat :=
  { stat := fun _ => .ok (),
    tree := fun _ => [.file "foo.yaml" (.ok progFoo)] }

/-- Witness for C6: loading two repositories that each define a
program named `foo` fails with the collision error. -/
theorem loadRepositories_collision_witness :
    ∃ x, LoadRepositories worldC6 ["r1", "r2"] =
      .error ("program " ++ x ++ " already exists") := by
  have hok : ∀ r ∈ (["r1", "r2"] : List String), worldC6.stat r = .ok () ∧
      (loadEntries (worldC6.tree r)).isOk = true := by
    intro r hr
    refine ⟨rfl, ?_⟩
    show (loadEntries [.file "foo.yaml" (.ok progFoo)]).isOk = true
    simp only [loadEntries]
    decide
  refine (loadRepositories_collision worldC6 ["r1", "r2"] hok).1 ?_
  have hload : loadEntries ([.file "foo.yaml" (.ok progFoo)] : List (FSTree Nat)) =
      .ok [progFoo] := by
    simp only [loadEntries]
    decide
  simp only [repoProgramsOf, worldC6, hload, List.map_cons, List.map_nil,
    List.flatten_cons, List.flatten_nil]
  decide

/-- Embeds Go `strings.TrimPrefix(s, pre)`: `s` without the leading
`pre` when present, else `s` unchanged. -/
def trimLeadStr (s pre : String) : String :=
  if hasPrefixStr s pre then String.mk (s.data.drop pre.data.length) else s

/-- The base-path search of the watch handler
(`cmd/cliopatra/cmds/render.go` lines 191-197): `basePath` starts as
the changed path and becomes the first configured root that is a
string prefix of it (`break` after the first hit). -/
def watchHandlerBase (files : List String) (path : String) : String :=
  match files with
  | [] => path
  | f :: rest => if hasPrefixStr path f then f else watchHandlerBase rest path

/-- The watch handler's path computation
(`cmd/cliopatra/cmds/render.go` lines 188-207): the handler computes
`basePath` as above and
`outputPath := filepath.Join(outputDirectory, strings.TrimPrefix(path, basePath))`,
then logs the pair (re-render dispatch is the Render Engine's
documented responsibility).  `filepath.Join` is Go standard library
and is passed in abstractly as `join`. -/
def watchHandlerPaths (join : String → String → String)
    (outputDirectory : String) (files : List String) (path : String) :
    String × String :=
  (watchHandlerBase files path,
    join outputDirectory (trimLeadStr path (watchHandlerBase files path)))

/-- **C9.** On a change event for path `P`, the handler's base is the
first configured root that is a string prefix of `P`, and the
computed output path is the output directory joined with `P`
stripped of that base prefix. -/
theorem watchHandler_output_path (join : String → String → String)
    (outputDirectory : String) (files : List String) (path base : String)
    (h : files.find? (fun f => hasPrefixStr path f) = some base) :
    watchHandlerPaths join outputDirectory files path =
      (base, join outputDirectory (String.mk (path.data.drop base.data.length))) := by
  have hbase : watchHandlerBase files path = base ∧ hasPrefixStr path base = true := by
    induction files with
    | nil => simp [List.find?] at h
    | cons f rest ih =>
      by_cases hf : hasPrefixStr path f = true
      · rw [List.find?_cons_of_pos _ (by simpa using hf)] at h
        injection h with h
        subst h
        exact ⟨by simp [watchHandlerBase, hf], hf⟩
      · rw [List.find?_cons_of_neg _ (by simpa using hf)] at h
        have hr := ih h
        exact ⟨by simp [watchHandlerBase, hf, hr.1], hr.2⟩
  unfold watchHandlerPaths
  rw [hbase.1,
    show trimLeadStr path base = String.mk (path.data.drop base.data.length) by
      simp [trimLeadStr, hbase.2]]

/-- A sample join function standing in for `filepath.Join`. -/
def joinC9 : String → String → String := fun a b => a ++ "/" ++ b

/-- Witness for C9: with roots `["src/docs", "other"]` and changed
path `src/docs/a.tmpl.md`, the base is `src/docs` and the output path
is the output directory joined with `/a.tmpl.md`. -/
theorem watchHandler_output_path_witness :
    watchHandlerPaths joinC9 "out" ["src/docs", "other"] "src/docs/a.tmpl.md" =
      ("src/docs",
        joinC9 "out" (String.mk ("src/docs/a.tmpl.md".data.drop "src/docs".data.length))) :=
  watchHandler_output_path joinC9 "out" ["src/docs", "other"]
    "src/docs/a.tmpl.md" "src/docs" (by decide)

/-!
Heap model for the cloning claims.  `Program.Clone` (lines 90-114)
starts from the struct copy `clone := *p`, which copies slice headers
and map references, and then re-allocates some of the backing
storage.  To reason about what is and is not shared, the Go memory is
made explicit: backing arrays and cells live in a `Heap` and the
struct holds reference ids into it.
-/

/-- A Go `interface{}` value as stored in `Parameter.Value`: either an
immutable scalar, or a reference to mutable backing storage (a slice
or map), which Go copies by reference. -/
inductive GoValue where
  | vStr (s : String)
  | vInt (n : Int)
  | vBool (b : Bool)
  | vListRef (id : Nat)
  | vMapRef (id : Nat)
  | vNil
deriving DecidableEq

/-- The fields of a `Parameter` cell, pointed to by a `*Parameter`. -/
structure ParameterCell where
  Name : String
  Flag : String
  Short : String
  Ty : String
  Value : GoValue
  Raw : String
  NoValue : Bool
deriving DecidableEq

/-- Go memory for the structures `Program.Clone` touches: backing
arrays of `[]string` slices, `Parameter` cells, backing arrays of
`[]*Parameter` slices, `map[string]string` objects, and list payloads
a `Value` may reference.  `next` is the next unused id: ids below
`next` are the allocated ones. -/
structure Heap where
  next : Nat
  strSlices : Nat → List String
  params : Nat → ParameterCell
  paramSlices : Nat → List Nat
  strMaps : Nat → List (String × String)
  valLists : Nat → List String

/-- A `Program` struct value: plain fields inline, slices and maps as
reference ids into the heap (`Verbs`, `RawFlags` into `strSlices`;
`Flags`, `Args` into `paramSlices`; `Env`, `ExpectedFiles` into
`strMaps`). -/
structure ProgramVal where
  Name : String
  Path : String
  Verbs : Nat
  Description : String
  Env : Nat
  RawFlags : Nat
  Flags : Nat
  Args : Nat
  Stdin : String
  ExpectedStdout : String
  ExpectedError : String
  ExpectedStatusCode : Int
  ExpectedFiles : Nat
deriving DecidableEq

/-- Allocate a fresh `[]string` backing array. -/
def Heap.allocStrSlice (h : Heap) (xs : List String) : Heap × Nat :=
  ({ h with
      next := h.next + 1
      strSlices := fun i => if i = h.next then xs else h.strSlices i }, h.next)

/-- Allocate a fresh `Parameter` cell. -/
def Heap.allocParam (h : Heap) (c : ParameterCell) : Heap × Nat :=
  ({ h with
      next := h.next + 1
      params := fun i => if i = h.next then c else h.params i }, h.next)

/-- Allocate a fresh `[]*Parameter` backing array. -/
def Heap.allocParamSlice (h : Heap) (xs : List Nat) : Heap × Nat :=
  ({ h with
      next := h.next + 1
      paramSlices := fun i => if i = h.next then xs else h.paramSlices i }, h.next)

/-- Allocate a fresh `map[string]string` object. -/
def Heap.allocStrMap (h : Heap) (m : List (String × String)) : Heap × Nat :=
  ({ h with
      next := h.next + 1
      strMaps := fun i => if i = h.next then m else h.strMaps i }, h.next)

/-- Embeds `Parameter.Clone` (`pkg/program.go` lines 39-49): a freshly
allocated `Parameter` whose fields copy the pointed-to cell; `Value`
is copied as a value of `interface{}` type, so a reference value is
copied as the same reference. -/
def ParameterClone (h : Heap) (pid : Nat) : Heap × Nat :=
  h.allocParam (h.params pid)

/-- The loop `for i, f := range p.Flags { clone.Flags[i] = f.Clone() }`
(`pkg/program.go` lines 96-98 and 100-102): fresh cells in order. -/
def cloneParams (h : Heap) : List Nat → Heap × List Nat
  | [] => (h, [])
  | pid :: rest =>
    let r1 := ParameterClone h pid
    let r2 := cloneParams r1.1 rest
    (r2.1, r1.2 :: r2.2)

/-- Embeds `Program.Clone` (`pkg/program.go` lines 90-114):
`clone := *p` copies the struct — in particular the `Verbs` slice
header, which is never re-allocated — then fresh backing storage is
made for `RawFlags` (copy), `Flags` and `Args` (fresh cells through
`Parameter.Clone`), `Env` and `ExpectedFiles` (entry copies). -/
def ProgramClone (h : Heap) (p : ProgramVal) : Heap × ProgramVal :=
  let r1 := h.allocStrSlice (h.strSlices p.RawFlags)
  let r2 := cloneParams r1.1 (r1.1.paramSlices p.Flags)
  let r3 := r2.1.allocParamSlice r2.2
  let r4 := cloneParams r3.1 (r3.1.paramSlices p.Args)
  let r5 := r4.1.allocParamSlice r4.2
  let r6 := r5.1.allocStrMap (r5.1.strMaps p.Env)
  let r7 := r6.1.allocStrMap (r6.1.strMaps p.ExpectedFiles)
  (r7.1, { p with
      RawFlags := r1.2
      Flags := r3.2
      Args := r5.2
      Env := r6.2
      ExpectedFiles := r7.2 })

/-- Go `s[i] = x` on a `[]string` with backing array `id`. -/
def Heap.setStrSliceElem (h : Heap) (id i : Nat) (s : String) : Heap :=
  { h with strSlices := fun j =>
      if j = id then (h.strSlices id).set i s else h.strSlices j }

/-- Go `param.Value = v` through the pointer `pid`. -/
def Heap.setParamValue (h : Heap) (pid : Nat) (v : GoValue) : Heap :=
  { h with params := fun j =>
      if j = pid then { h.params pid with Value := v } else h.params j }

/-- Go `p.Flags[i].Value = v`: write through the i-th pointer of the
flags backing array. -/
def setFlagValueAt (h : Heap) (p : ProgramVal) (i : Nat) (v : GoValue) : Heap :=
  h.setParamValue ((h.paramSlices p.Flags).getD i 0) v

/-- Go `m[k] = v` on an association-list map image. -/
def mapAssign (m : List (String × String)) (k v : String) :
    List (String × String) :=
  if m.any (fun kv => kv.1 = k) then
    m.map (fun kv => if kv.1 = k then (k, v) else kv)
  else m ++ [(k, v)]

/-- Go `m[k] = v` on the map object `id`. -/
def Heap.setMapEntry (h : Heap) (id : Nat) (k v : String) : Heap :=
  { h with strMaps := fun j =>
      if j = id then mapAssign (h.strMaps id) k v else h.strMaps j }

/-- Go `lst[i] = x` on the list payload `id` (reached through a
`Value` holding a slice). -/
def Heap.setValListElem (h : Heap) (id i : Nat) (s : String) : Heap :=
  { h with valLists := fun j =>
      if j = id then (h.valLists id).set i s else h.valLists j }

/-- The contents of `p.Verbs`. -/
def verbsView (h : Heap) (p : ProgramVal) : List String :=
  h.strSlices p.Verbs

/-- The contents of `p.RawFlags`. -/
def rawFlagsView (h : Heap) (p : ProgramVal) : List String :=
  h.strSlices p.RawFlags

/-- The `Parameter` cells of `p.Flags`, dereferenced in order. -/
def flagCellsView (h : Heap) (p : ProgramVal) : List ParameterCell :=
  (h.paramSlices p.Flags).map h.params

/-- The entries of `p.Env`. -/
def envView (h : Heap) (p : ProgramVal) : List (String × String) :=
  h.strMaps p.Env

/-- The entries of `p.ExpectedFiles`. -/
def expectedFilesView (h : Heap) (p : ProgramVal) : List (String × String) :=
  h.strMaps p.ExpectedFiles

/-- The reference id held by a reference `GoValue` (0 for scalars). -/
def goValueRefId : GoValue → Nat
  | .vListRef id => id
  | .vMapRef id => id
  | _ => 0

/-- The zero cell. -/
def defaultCell : ParameterCell :=
  { Name := "", Flag := "", Short := "", Ty := "", Value := .vNil,
    Raw := "", NoValue := false }

/-- The list payload referenced by flag `i`'s `Value`. -/
def flagValueListView (h : Heap) (p : ProgramVal) (i : Nat) : List String :=
  h.valLists (goValueRefId
    ((((h.paramSlices p.Flags).map h.params).getD i defaultCell).Value))

/-- All ids a program references are allocated. -/
def ProgramWF (h : Heap) (p : ProgramVal) : Prop :=
  p.Verbs < h.next ∧ p.RawFlags < h.next ∧ p.Flags < h.next ∧
  p.Args < h.next ∧ p.Env < h.next ∧ p.ExpectedFiles < h.next ∧
  (∀ pid ∈ h.paramSlices p.Flags, pid < h.next) ∧
  (∀ pid ∈ h.paramSlices p.Args, pid < h.next)

/-- Two heaps agree on every component at all ids below `n`. -/
def HeapAgreesBelow (h g : Heap) (n : Nat) : Prop :=
  (∀ i, i < n → g.strSlices i = h.strSlices i) ∧
  (∀ i, i < n → g.params i = h.params i) ∧
  (∀ i, i < n → g.paramSlices i = h.paramSlices i) ∧
  (∀ i, i < n → g.strMaps i = h.strMaps i) ∧
  (∀ i, i < n → g.valLists i = h.valLists i)

/-- Agreement is reflexive. -/
theorem agreesBelow_refl (h : Heap) (n : Nat) : HeapAgreesBelow h h n :=
  ⟨fun _ _ => rfl, fun _ _ => rfl, fun _ _ => rfl, fun _ _ => rfl, fun _ _ => rfl⟩

/-- Agreement composes when the second step covers at least as far. -/
theorem agreesBelow_trans {h g k : Heap} {n m : Nat}
    (h1 : HeapAgreesBelow h g n) (h2 : HeapAgreesBelow g k m) (hnm : n ≤ m) :
    HeapAgreesBelow h k n := by
  refine ⟨fun i hi => ?_, fun i hi => ?_, fun i hi => ?_, fun i hi => ?_,
    fun i hi => ?_⟩
  · rw [h2.1 i (lt_of_lt_of_le hi hnm), h1.1 i hi]
  · rw [h2.2.1 i (lt_of_lt_of_le hi hnm), h1.2.1 i hi]
  · rw [h2.2.2.1 i (lt_of_lt_of_le hi hnm), h1.2.2.1 i hi]
  · rw [h2.2.2.2.1 i (lt_of_lt_of_le hi hnm), h1.2.2.2.1 i hi]
  · rw [h2.2.2.2.2 i (lt_of_lt_of_le hi hnm), h1.2.2.2.2 i hi]

/-- Allocating a string slice only writes at the fresh id. -/
theorem allocStrSlice_agrees (h : Heap) (xs : List String) :
    HeapAgreesBelow h (h.allocStrSlice xs).1 h.next := by
  refine ⟨fun i hi => ?_, fun _ _ => rfl, fun _ _ => rfl, fun _ _ => rfl,
    fun _ _ => rfl⟩
  show (if i = h.next then xs else h.strSlices i) = h.strSlices i
  rw [if_neg (Nat.ne_of_lt hi)]

/-- Allocating a parameter cell only writes at the fresh id. -/
theorem allocParam_agrees (h : Heap) (c : ParameterCell) :
    HeapAgreesBelow h (h.allocParam c).1 h.next := by
  refine ⟨fun _ _ => rfl, fun i hi => ?_, fun _ _ => rfl, fun _ _ => rfl,
    fun _ _ => rfl⟩
  show (if i = h.next then c else h.params i) = h.params i
  rw [if_neg (Nat.ne_of_lt hi)]

/-- Allocating a parameter slice only writes at the fresh id. -/
theorem allocParamSlice_agrees (h : Heap) (xs : List Nat) :
    HeapAgreesBelow h (h.allocParamSlice xs).1 h.next := by
  refine ⟨fun _ _ => rfl, fun _ _ => rfl, fun i hi => ?_, fun _ _ => rfl,
    fun _ _ => rfl⟩
  show (if i = h.next then xs else h.paramSlices i) = h.paramSlices i
  rw [if_neg (Nat.ne_of_lt hi)]

/-- Allocating a string map only writes at the fresh id. -/
theorem allocStrMap_agrees (h : Heap) (m : List (String × String)) :
    HeapAgreesBelow h (h.allocStrMap m).1 h.next := by
  refine ⟨fun _ _ => rfl, fun _ _ => rfl, fun _ _ => rfl, fun i hi => ?_,
    fun _ _ => rfl⟩
  show (if i = h.next then m else h.strMaps i) = h.strMaps i
  rw [if_neg (Nat.ne_of_lt hi)]

/-- Pointwise-equal functions map lists equally. -/
theorem listMapCongrMem {α β : Type} (f g : α → β) (l : List α)
    (h : ∀ a ∈ l, f a = g a) : l.map f = l.map g := by
  induction l with
  | nil => rfl
  | cons a t ih =>
    simp only [List.map_cons]
    rw [h a (by simp), ih (fun b hb => h b (by simp [hb]))]

/-- Cloning cells never writes to the slice, map or payload stores. -/
theorem cloneParams_untouched (ids : List Nat) : ∀ h : Heap,
    (cloneParams h ids).1.strSlices = h.strSlices ∧
    (cloneParams h ids).1.paramSlices = h.paramSlices ∧
    (cloneParams h ids).1.strMaps = h.strMaps ∧
    (cloneParams h ids).1.valLists = h.valLists := by
  induction ids with
  | nil => exact fun h => ⟨rfl, rfl, rfl, rfl⟩
  | cons pid rest ih =>
    intro h
    have e : (cloneParams h (pid :: rest)).1 =
        (cloneParams (ParameterClone h pid).1 rest).1 := rfl
    rw [e]
    have ihr := ih (ParameterClone h pid).1
    exact ⟨ihr.1, ihr.2.1, ihr.2.2.1, ihr.2.2.2⟩

/-- What one pass of cell cloning guarantees: the heap grows, old ids
are untouched, the returned ids are exactly the fresh range in order,
and (for allocated inputs) the new cells copy the old ones. -/
theorem cloneParams_spec (ids : List Nat) : ∀ h : Heap,
    h.next ≤ (cloneParams h ids).1.next ∧
    HeapAgreesBelow h (cloneParams h ids).1 h.next ∧
    (∀ nid ∈ (cloneParams h ids).2,
      h.next ≤ nid ∧ nid < (cloneParams h ids).1.next) ∧
    (cloneParams h ids).2.length = ids.length ∧
    ((∀ pid ∈ ids, pid < h.next) →
      (cloneParams h ids).2.map (cloneParams h ids).1.params =
        ids.map h.params) := by
  induction ids with
  | nil =>
    intro h
    exact ⟨le_refl _, agreesBelow_refl h h.next, by simp [cloneParams],
      by simp [cloneParams], fun _ => by simp [cloneParams]⟩
  | cons pid rest ih =>
    intro h
    have e1 : (cloneParams h (pid :: rest)).1 =
        (cloneParams (ParameterClone h pid).1 rest).1 := rfl
    have e2 : (cloneParams h (pid :: rest)).2 =
        (ParameterClone h pid).2 :: (cloneParams (ParameterClone h pid).1 rest).2 := rfl
    have hn1 : (ParameterClone h pid).1.next = h.next + 1 := rfl
    have hid1 : (ParameterClone h pid).2 = h.next := rfl
    have hag1 : HeapAgreesBelow h (ParameterClone h pid).1 h.next :=
      allocParam_agrees h (h.params pid)
    have ihr := ih (ParameterClone h pid).1
    have hle1 : h.next ≤ (ParameterClone h pid).1.next := by
      rw [hn1]
      omega
    refine ⟨?_, ?_, ?_, ?_, ?_⟩
    · rw [e1]
      exact le_trans hle1 ihr.1
    · rw [e1]
      exact agreesBelow_trans hag1 ihr.2.1 hle1
    · intro nid hnid
      rw [e1]
      rw [e2] at hnid
      rcases List.mem_cons.mp hnid with heq | hmem
      · rw [heq, hid1]
        exact ⟨le_refl _, lt_of_lt_of_le (by rw [hn1]; omega) ihr.1⟩
      · have hm := ihr.2.2.1 nid hmem
        exact ⟨le_trans hle1 hm.1, hm.2⟩
    · rw [e2]
      simp only [List.length_cons]
      rw [ihr.2.2.2.1]
    · intro hwf
      rw [e1, e2]
      simp only [List.map_cons]
      have hlt : h.next < (ParameterClone h pid).1.next := by
        rw [hn1]
        omega
    -- head cell: the fresh cell copies the old one and survives the rest
      have hhead : (cloneParams (ParameterClone h pid).1 rest).1.params
          (ParameterClone h pid).2 = h.params pid := by
        rw [hid1, ihr.2.1.2.1 h.next hlt]
        show (if h.next = h.next then h.params pid else h.params h.next) =
          h.params pid
        rw [if_pos rfl]
      have hwf1 : ∀ q ∈ rest, q < (ParameterClone h pid).1.next := by
        intro q hq
        rw [hn1]
        exact lt_trans (hwf q (by simp [hq])) (by omega)
      have htail : (cloneParams (ParameterClone h pid).1 rest).2.map
          (cloneParams (ParameterClone h pid).1 rest).1.params =
          rest.map h.params := by
        rw [ihr.2.2.2.2 hwf1]
        exact listMapCongrMem _ _ rest
          (fun q hq => hag1.2.1 q (hwf q (by simp [hq])))
      rw [hhead, htail]

/-- Stage 1 of `Program.Clone`: the fresh `RawFlags` backing array. -/
def cs1 (h : Heap) (p : ProgramVal) : Heap × Nat :=
  h.allocStrSlice (h.strSlices p.RawFlags)

/-- Stage 2: the fresh `Flags` cells. -/
def cs2 (h : Heap) (p : ProgramVal) : Heap × List Nat :=
  cloneParams (cs1 h p).1 ((cs1 h p).1.paramSlices p.Flags)

/-- Stage 3: the fresh `Flags` backing array. -/
def cs3 (h : Heap) (p : ProgramVal) : Heap × Nat :=
  (cs2 h p).1.allocParamSlice (cs2 h p).2

/-- Stage 4: the fresh `Args` cells. -/
def cs4 (h : Heap) (p : ProgramVal) : Heap × List Nat :=
  cloneParams (cs3 h p).1 ((cs3 h p).1.paramSlices p.Args)

/-- Stage 5: the fresh `Args` backing array. -/
def cs5 (h : Heap) (p : ProgramVal) : Heap × Nat :=
  (cs4 h p).1.allocParamSlice (cs4 h p).2

/-- Stage 6: the fresh `Env` map. -/
def cs6 (h : Heap) (p : ProgramVal) : Heap × Nat :=
  (cs5 h p).1.allocStrMap ((cs5 h p).1.strMaps p.Env)

/-- Stage 7: the fresh `ExpectedFiles` map. -/
def cs7 (h : Heap) (p : ProgramVal) : Heap × Nat :=
  (cs6 h p).1.allocStrMap ((cs6 h p).1.strMaps p.ExpectedFiles)

/-- `ProgramClone` decomposed into its stages. -/
theorem ProgramClone_stages (h : Heap) (p : ProgramVal) :
    ProgramClone h p = ((cs7 h p).1,
      { p with
          RawFlags := (cs1 h p).2
          Flags := (cs3 h p).2
          Args := (cs5 h p).2
          Env := (cs6 h p).2
          ExpectedFiles := (cs7 h p).2 }) := rfl

/-- Writing a cell only changes that cell. -/
theorem setParamValue_at_ne (h : Heap) (pid q : Nat) (v : GoValue)
    (hne : q ≠ pid) : (h.setParamValue pid v).params q = h.params q := by
  show (if q = pid then { h.params pid with Value := v } else h.params q) =
    h.params q
  rw [if_neg hne]

/-- Writing a map entry only changes that map object. -/
theorem setMapEntry_at_ne (h : Heap) (id q : Nat) (k v : String)
    (hne : q ≠ id) : (h.setMapEntry id k v).strMaps q = h.strMaps q := by
  show (if q = id then mapAssign (h.strMaps id) k v else h.strMaps q) =
    h.strMaps q
  rw [if_neg hne]

/-- **C3 (amended).** `Program.Clone` copies the observable contents
of the program — the clone's `Verbs`, `RawFlags`, `Flags` cells,
`Env`, and `ExpectedFiles` read back equal to the original's — and
gives `RawFlags`, `Flags`, `Args`, `Env`, and `ExpectedFiles` fresh
backing storage, so replacing a clone flag's `Value` (through
`clone.Flags[i]`), or writing an entry of the clone's `Env` or
`ExpectedFiles`, never alters the original, and mutating the
original's likewise never alters the clone.  (The `Verbs` backing
array and any list/map payload referenced by a `Value` are shared;
see the counterexample.) -/
theorem programClone_independent_copy (h : Heap) (p : ProgramVal)
    (wf : ProgramWF h p) :
    (verbsView (ProgramClone h p).1 (ProgramClone h p).2 = verbsView h p ∧
     rawFlagsView (ProgramClone h p).1 (ProgramClone h p).2 = rawFlagsView h p ∧
     flagCellsView (ProgramClone h p).1 (ProgramClone h p).2 = flagCellsView h p ∧
     envView (ProgramClone h p).1 (ProgramClone h p).2 = envView h p ∧
     expectedFilesView (ProgramClone h p).1 (ProgramClone h p).2 =
       expectedFilesView h p) ∧
    (∀ i v, i < (h.paramSlices p.Flags).length →
      flagCellsView
        (setFlagValueAt (ProgramClone h p).1 (ProgramClone h p).2 i v) p =
        flagCellsView h p) ∧
    (∀ i v, i < (h.paramSlices p.Flags).length →
      flagCellsView (setFlagValueAt (ProgramClone h p).1 p i v)
        (ProgramClone h p).2 =
        flagCellsView (ProgramClone h p).1 (ProgramClone h p).2) ∧
    (∀ k v, envView
        (Heap.setMapEntry (ProgramClone h p).1 (ProgramClone h p).2.Env k v) p =
      envView h p) ∧
    (∀ k v, envView (Heap.setMapEntry (ProgramClone h p).1 p.Env k v)
        (ProgramClone h p).2 =
      envView (ProgramClone h p).1 (ProgramClone h p).2) ∧
    (∀ k v, expectedFilesView
        (Heap.setMapEntry (ProgramClone h p).1
          (ProgramClone h p).2.ExpectedFiles k v) p =
      expectedFilesView h p) ∧
    (∀ k v, expectedFilesView
        (Heap.setMapEntry (ProgramClone h p).1 p.ExpectedFiles k v)
        (ProgramClone h p).2 =
      expectedFilesView (ProgramClone h p).1 (ProgramClone h p).2) := by
  obtain ⟨wfV, wfR, wfF, wfA, wfE, wfX, wfFl, wfAr⟩ := wf
  have n1 : (cs1 h p).1.next = h.next + 1 := rfl
  have id1 : (cs1 h p).2 = h.next := rfl
  have n3 : (cs3 h p).1.next = (cs2 h p).1.next + 1 := rfl
  have id3 : (cs3 h p).2 = (cs2 h p).1.next := rfl
  have n5 : (cs5 h p).1.next = (cs4 h p).1.next + 1 := rfl
  have id5 : (cs5 h p).2 = (cs4 h p).1.next := rfl
  have n6 : (cs6 h p).1.next = (cs5 h p).1.next + 1 := rfl
  have id6 : (cs6 h p).2 = (cs5 h p).1.next := rfl
  have n7 : (cs7 h p).1.next = (cs6 h p).1.next + 1 := rfl
  have id7 : (cs7 h p).2 = (cs6 h p).1.next := rfl
  have specB : h.next + 1 ≤ (cs2 h p).1.next ∧
      HeapAgreesBelow (cs1 h p).1 (cs2 h p).1 (h.next + 1) ∧
      (∀ nid ∈ (cs2 h p).2, h.next + 1 ≤ nid ∧ nid < (cs2 h p).1.next) ∧
      (cs2 h p).2.length = (h.paramSlices p.Flags).length ∧
      ((∀ pid ∈ h.paramSlices p.Flags, pid < h.next + 1) →
        (cs2 h p).2.map (cs2 h p).1.params =
          (h.paramSlices p.Flags).map h.params) :=
    cloneParams_spec ((cs1 h p).1.paramSlices p.Flags) (cs1 h p).1
  have untB : (cs2 h p).1.strSlices = (cs1 h p).1.strSlices ∧
      (cs2 h p).1.paramSlices = h.paramSlices ∧
      (cs2 h p).1.strMaps = h.strMaps ∧
      (cs2 h p).1.valLists = h.valLists :=
    cloneParams_untouched ((cs1 h p).1.paramSlices p.Flags) (cs1 h p).1
  have specD : (cs3 h p).1.next ≤ (cs4 h p).1.next ∧
      HeapAgreesBelow (cs3 h p).1 (cs4 h p).1 (cs3 h p).1.next ∧
      (∀ nid ∈ (cs4 h p).2, (cs3 h p).1.next ≤ nid ∧ nid < (cs4 h p).1.next) ∧
      (cs4 h p).2.length = ((cs3 h p).1.paramSlices p.Args).length ∧
      ((∀ pid ∈ (cs3 h p).1.paramSlices p.Args, pid < (cs3 h p).1.next) →
        (cs4 h p).2.map (cs4 h p).1.params =
          ((cs3 h p).1.paramSlices p.Args).map (cs3 h p).1.params) :=
    cloneParams_spec ((cs3 h p).1.paramSlices p.Args) (cs3 h p).1
  have untD : (cs4 h p).1.strSlices = (cs3 h p).1.strSlices ∧
      (cs4 h p).1.paramSlices = (cs3 h p).1.paramSlices ∧
      (cs4 h p).1.strMaps = (cs3 h p).1.strMaps ∧
      (cs4 h p).1.valLists = (cs3 h p).1.valLists :=
    cloneParams_untouched ((cs3 h p).1.paramSlices p.Args) (cs3 h p).1
  have ag01 : HeapAgreesBelow h (cs1 h p).1 h.next :=
    allocStrSlice_agrees h (h.strSlices p.RawFlags)
  have ag23 : HeapAgreesBelow (cs2 h p).1 (cs3 h p).1 (cs2 h p).1.next :=
    allocParamSlice_agrees (cs2 h p).1 (cs2 h p).2
  have ag45 : HeapAgreesBelow (cs4 h p).1 (cs5 h p).1 (cs4 h p).1.next :=
    allocParamSlice_agrees (cs4 h p).1 (cs4 h p).2
  have ag56 : HeapAgreesBelow (cs5 h p).1 (cs6 h p).1 (cs5 h p).1.next :=
    allocStrMap_agrees (cs5 h p).1 ((cs5 h p).1.strMaps p.Env)
  have ag67 : HeapAgreesBelow (cs6 h p).1 (cs7 h p).1 (cs6 h p).1.next :=
    allocStrMap_agrees (cs6 h p).1 ((cs6 h p).1.strMaps p.ExpectedFiles)
  have lB := specB.1
  have lD := specD.1
  have ag02 := agreesBelow_trans ag01 specB.2.1 (by omega)
  have ag03 := agreesBelow_trans ag02 ag23 (by omega)
  have ag04 := agreesBelow_trans ag03 specD.2.1 (by omega)
  have ag05 := agreesBelow_trans ag04 ag45 (by omega)
  have ag06 := agreesBelow_trans ag05 ag56 (by omega)
  have ag07 := agreesBelow_trans ag06 ag67 (by omega)
  have sseq : (cs7 h p).1.strSlices = (cs1 h p).1.strSlices := by
    calc (cs7 h p).1.strSlices = (cs4 h p).1.strSlices := rfl
      _ = (cs3 h p).1.strSlices := untD.1
      _ = (cs1 h p).1.strSlices := untB.1
  have hm5 : (cs5 h p).1.strMaps = h.strMaps := by
    calc (cs5 h p).1.strMaps = (cs3 h p).1.strMaps := untD.2.2.1
      _ = h.strMaps := untB.2.2.1
  have hFlagsSlice : (cs7 h p).1.paramSlices (cs3 h p).2 = (cs2 h p).2 := by
    rw [id3]
    show (if (cs2 h p).1.next = (cs4 h p).1.next then (cs4 h p).2
      else (cs4 h p).1.paramSlices (cs2 h p).1.next) = (cs2 h p).2
    rw [if_neg (by omega), congrFun untD.2.1 ((cs2 h p).1.next)]
    show (if (cs2 h p).1.next = (cs2 h p).1.next then (cs2 h p).2
      else (cs2 h p).1.paramSlices ((cs2 h p).1.next)) = (cs2 h p).2
    rw [if_pos rfl]
  have hcells : (cs2 h p).2.map (cs7 h p).1.params =
      (h.paramSlices p.Flags).map h.params := by
    have hb : (cs2 h p).2.map (cs7 h p).1.params =
        (cs2 h p).2.map (cs2 h p).1.params := by
      refine listMapCongrMem _ _ _ (fun nid hnid => ?_)
      have hn := specB.2.2.1 nid hnid
      exact specD.2.1.2.1 nid (by omega)
    have hc := specB.2.2.2.2 (fun pid hpid => by
      have := wfFl pid hpid
      omega)
    exact hb.trans hc
  rw [ProgramClone_stages]
  simp only [verbsView, rawFlagsView, flagCellsView, envView,
    expectedFilesView, setFlagValueAt]
  refine ⟨⟨?_, ?_, ?_, ?_, ?_⟩, ?_, ?_, ?_, ?_, ?_, ?_⟩
  · exact ag07.1 p.Verbs wfV
  · show (cs7 h p).1.strSlices (cs1 h p).2 = h.strSlices p.RawFlags
    rw [sseq, id1]
    show (if h.next = h.next then h.strSlices p.RawFlags
      else h.strSlices h.next) = h.strSlices p.RawFlags
    rw [if_pos rfl]
  · show ((cs7 h p).1.paramSlices (cs3 h p).2).map (cs7 h p).1.params =
      (h.paramSlices p.Flags).map h.params
    rw [hFlagsSlice]
    exact hcells
  · show (cs7 h p).1.strMaps (cs6 h p).2 = h.strMaps p.Env
    rw [id6]
    show (if (cs5 h p).1.next = (cs6 h p).1.next then
      (cs6 h p).1.strMaps p.ExpectedFiles
      else (cs6 h p).1.strMaps ((cs5 h p).1.next)) = h.strMaps p.Env
    rw [if_neg (by omega)]
    show (if (cs5 h p).1.next = (cs5 h p).1.next then (cs5 h p).1.strMaps p.Env
      else (cs5 h p).1.strMaps ((cs5 h p).1.next)) = h.strMaps p.Env
    rw [if_pos rfl, hm5]
  · show (cs7 h p).1.strMaps (cs7 h p).2 = h.strMaps p.ExpectedFiles
    rw [id7]
    show (if (cs6 h p).1.next = (cs6 h p).1.next then
      (cs6 h p).1.strMaps p.ExpectedFiles
      else (cs6 h p).1.strMaps ((cs6 h p).1.next)) = h.strMaps p.ExpectedFiles
    rw [if_pos rfl]
    show (if p.ExpectedFiles = (cs5 h p).1.next then (cs5 h p).1.strMaps p.Env
      else (cs5 h p).1.strMaps p.ExpectedFiles) = h.strMaps p.ExpectedFiles
    rw [if_neg (by omega), hm5]
  · intro i v hi
    have hpid0 : ((cs7 h p).1.paramSlices (cs3 h p).2).getD i 0 ∈ (cs2 h p).2 := by
      rw [hFlagsSlice]
      have hil : i < (cs2 h p).2.length := by
        rw [specB.2.2.2.1]
        exact hi
      rw [List.getD_eq_getElem _ _ hil]
      exact List.getElem_mem hil
    have hfresh := specB.2.2.1 _ hpid0
    have hps : (Heap.setParamValue (cs7 h p).1
        (((cs7 h p).1.paramSlices (cs3 h p).2).getD i 0) v).paramSlices
        p.Flags = h.paramSlices p.Flags := by
      show (cs7 h p).1.paramSlices p.Flags = h.paramSlices p.Flags
      exact ag07.2.2.1 p.Flags wfF
    rw [hps]
    refine listMapCongrMem _ _ _ (fun q hq => ?_)
    have hqlt : q < h.next := wfFl q hq
    rw [setParamValue_at_ne _ _ _ _ (by omega)]
    exact ag07.2.1 q hqlt
  · intro i v hi
    have hq0 : ((cs7 h p).1.paramSlices p.Flags).getD i 0 ∈
        h.paramSlices p.Flags := by
      rw [ag07.2.2.1 p.Flags wfF, List.getD_eq_getElem _ _ hi]
      exact List.getElem_mem hi
    have hq0lt : ((cs7 h p).1.paramSlices p.Flags).getD i 0 < h.next :=
      wfFl _ hq0
    have hps2 : (Heap.setParamValue (cs7 h p).1
        (((cs7 h p).1.paramSlices p.Flags).getD i 0) v).paramSlices
        (cs3 h p).2 = (cs2 h p).2 := by
      show (cs7 h p).1.paramSlices (cs3 h p).2 = (cs2 h p).2
      exact hFlagsSlice
    rw [hps2, hFlagsSlice]
    refine listMapCongrMem _ _ _ (fun nid hnid => ?_)
    have hn := specB.2.2.1 nid hnid
    exact setParamValue_at_ne _ _ _ _ (by omega)
  · intro k v
    show (Heap.setMapEntry (cs7 h p).1 (cs6 h p).2 k v).strMaps p.Env =
      h.strMaps p.Env
    rw [setMapEntry_at_ne _ _ _ _ _ (by omega)]
    exact ag07.2.2.2.1 p.Env wfE
  · intro k v
    show (Heap.setMapEntry (cs7 h p).1 p.Env k v).strMaps (cs6 h p).2 =
      (cs7 h p).1.strMaps (cs6 h p).2
    rw [setMapEntry_at_ne _ _ _ _ _ (by omega)]
  · intro k v
    show (Heap.setMapEntry (cs7 h p).1 (cs7 h p).2 k v).strMaps
      p.ExpectedFiles = h.strMaps p.ExpectedFiles
    rw [setMapEntry_at_ne _ _ _ _ _ (by omega)]
    exact ag07.2.2.2.1 p.ExpectedFiles wfX
  · intro k v
    show (Heap.setMapEntry (cs7 h p).1 p.ExpectedFiles k v).strMaps
      (cs7 h p).2 = (cs7 h p).1.strMaps (cs7 h p).2
    rw [setMapEntry_at_ne _ _ _ _ _ (by omega)]

/-- A flag cell whose `Value` is a `[]string`, i.e. a reference to
list payload 3. -/
def exCell : ParameterCell :=
  { Name := "flag1", Flag := "", Short := "", Ty := "stringList",
    Value := .vListRef 3, Raw := "", NoValue := false }

/-- A concrete heap: Verbs backing array at id 0 holding `["a","b"]`,
flags slice at id 1 holding one pointer to cell 2, the cell's list
payload at id 3 holding `["x"]`, and empty RawFlags (4), Args (5),
Env (6), ExpectedFiles (7). -/
def exHeap : Heap :=
  { next := 8
    strSlices := fun i => if i = 0 then ["a", "b"] else []
    params := fun i => if i = 2 then exCell else defaultCell
    paramSlices := fun i => if i = 1 then [2] else []
    strMaps := fun _ => []
    valLists := fun i => if i = 3 then ["x"] else [] }

/-- A concrete program over `exHeap`. -/
def exProg : ProgramVal :=
  { Name := "p", Path := "", Verbs := 0, Description := "", Env := 6,
    RawFlags := 4, Flags := 1, Args := 5, Stdin := "",
    ExpectedStdout := "", ExpectedError := "", ExpectedStatusCode := 0,
    ExpectedFiles := 7 }

/-- **C3 counterexample.** Cloning does share backing storage:
writing element 0 of the clone's `Verbs` changes the original's
`Verbs` from `["a","b"]` to `["MUT","b"]` (the struct copy
`clone := *p` shares the `Verbs` backing array), and writing the list
payload reached through the clone's `Flags[0].Value` changes the
original's payload from `["x"]` to `["MUT2"]` (the `interface{}`
value is copied as a reference) — refuting the claim that mutating
the clone never alters the original. -/
theorem programClone_shared_backing_counterexample :
    verbsView exHeap exProg = ["a", "b"] ∧
    verbsView
      (Heap.setStrSliceElem (ProgramClone exHeap exProg).1
        ((ProgramClone exHeap exProg).2).Verbs 0 "MUT")
      exProg = ["MUT", "b"] ∧
    flagValueListView exHeap exProg 0 = ["x"] ∧
    flagValueListView
      (Heap.setValListElem (ProgramClone exHeap exProg).1
        (goValueRefId
          ((((ProgramClone exHeap exProg).1.paramSlices
            ((ProgramClone exHeap exProg).2).Flags).map
            (ProgramClone exHeap exProg).1.params).getD 0 defaultCell).Value)
        0 "MUT2")
      exProg 0 = ["MUT2"] := by
  decide

/-- Witness for the amended C3: on the concrete heap, replacing the
clone's flag 0 `Value` and writing a clone `Env` entry leave the
original's views unchanged. -/
theorem programClone_independent_copy_witness :
    flagCellsView
      (setFlagValueAt (ProgramClone exHeap exProg).1
        (ProgramClone exHeap exProg).2 0 (.vStr "changed")) exProg =
      flagCellsView exHeap exProg ∧
    envView
      (Heap.setMapEntry (ProgramClone exHeap exProg).1
        (ProgramClone exHeap exProg).2.Env "K" "V") exProg =
      envView exHeap exProg := by
  have h := programClone_independent_copy exHeap exProg
    (by unfold ProgramWF; decide)
  exact ⟨h.2.1 0 (.vStr "changed") (by decide), h.2.2.2.1 "K" "V"⟩

end Cliopatra
